import Mathlib

/-!
# Verification of the fitbit2oscar extraction pipeline

A shallow embedding of `src/fitbit2oscar/fitbit_extractor.py` and
`src/fitbit2oscar/handlers.py`, together with theorems settling the
specification claims about the path/value resolver, the record validator,
the vitals and sleep stream extractors, the vitals collector and the
handler registry.

Python values flowing through the extractor are modelled by `Value`
(integers, strings and string-keyed dictionaries).  Python exceptions that
the code can raise or catch are modelled by `PyError`; a computation that
can raise is an `Except PyError _`.  Generators are modelled by functions
returning the list of items yielded before the generator either finishes
or raises.
-/

namespace Fitbit

/-- A Python value as handled by the extractor: an int, a string, or a
string-keyed dict (modelled as an association list, first binding wins). -/
inductive Value where
  | int : Int → Value
  | str : String → Value
  | dict : List (String × Value) → Value

/-- The Python exceptions relevant to the embedded code. -/
inductive PyError where
  | keyError
  | typeError
  | attributeError
  | indexError
  | valueError
deriving DecidableEq, Repr

/-- The result of `get_nested_value`: either a `dict_keys` view (when the
final value is a dict, the code returns `data.keys()`) or the raw value. -/
inductive Resolved where
  | keySet : List String → Resolved
  | value : Value → Resolved

/-- A `FieldPath` as passed to `get_nested_value`: either a single
(possibly dot-delimited) string or a sequence of keys (`DictNotation =
str | list[str]` in the source). -/
inductive KeyPath where
  | str : String → KeyPath
  | list : List String → KeyPath
deriving DecidableEq, Repr

/-- Python subscription `data[key]` with a string key, with both failure
modes the source catches (`KeyError` on a dict without the key,
`TypeError` on a non-subscriptable or non-string-indexable value)
collapsed to `none`. -/
def Value.lookup : Value → String → Option Value
  | .dict kvs, k => kvs.lookup k
  | _, _ => none

/-- Iterating a Python string yields its characters as 1-character
strings; this is what `for key in key_path` does when `key_path` is a
string that was not split. -/
def charKeys (s : String) : List String :=
  s.toList.map fun c => String.mk [c]

/-- Python `s.split(".")` on the characters of a string: split at every
dot, keeping empty pieces. -/
def splitOnDotAux : List Char → List Char → List String
  | [], acc => [String.mk acc.reverse]
  | c :: cs, acc =>
    if c = '.' then String.mk acc.reverse :: splitOnDotAux cs []
    else splitOnDotAux cs (c :: acc)

/-- Python `s.split(".")`. -/
def splitOnDot (s : String) : List String := splitOnDotAux s.toList []

/-- The key sequence actually iterated by `get_nested_value`:
`if "." in key_path: key_path = key_path.split(".")` followed by
`for key in key_path`.  A string containing a dot is split on dots; a
string without a dot is iterated character by character; a list is
iterated as is — unless it contains "." as an element, in which case
`key_path.split(".")` raises `AttributeError` (lists have no `split`). -/
def toKeys : KeyPath → Except PyError (List String)
  | .str s => .ok (if s.toList.contains '.' then splitOnDot s else charKeys s)
  | .list l => if l.contains "." then .error .attributeError else .ok l

/-- The loop body of `get_nested_value`: `try: data = data[key] except
(KeyError, TypeError): data` — the `except` arm is a bare expression
statement, so on failure `data` is left unchanged and the loop continues
with the next key. -/
def walk (data : Value) (keys : List String) : Value :=
  keys.foldl (fun d k => (d.lookup k).getD d) data

/-- `result = data.keys() if isinstance(data, dict) else data`. -/
def finalize : Value → Resolved
  | .dict kvs => .keySet (kvs.map Prod.fst)
  | v => .value v

/-- `FitbitExtractor.get_nested_value` (fitbit_extractor.py:27-40). -/
def get_nested_value (data : Value) (key_path : KeyPath) :
    Except PyError Resolved :=
  (toKeys key_path).map fun ks => finalize (walk data ks)

/-- The walk as §4.1 of the spec describes it: abort at the first key that
is absent or not indexable and return the value as last successfully
reached.  Spec-side definition, kept only to compare with `walk`. -/
def walkAbort : Value → List String → Value
  | d, [] => d
  | d, k :: ks =>
    match d.lookup k with
    | some v => walkAbort v ks
    | none => d

mutual

/-- Whether the key `k` appears anywhere (at any depth) under a value. -/
def hasKeyDeep (k : String) : Value → Bool
  | .int _ => false
  | .str _ => false
  | .dict kvs => hasKeyDeepList k kvs

/-- Helper for `hasKeyDeep` on the bindings of a dict. -/
def hasKeyDeepList (k : String) : List (String × Value) → Bool
  | [] => false
  | (k', v) :: rest => k' == k || hasKeyDeep k v || hasKeyDeepList k rest

end

/-- Key paths on which `get_nested_value` does not reach the
`AttributeError` branch: any string, or a key sequence without "." as an
element. -/
def pathSafe : KeyPath → Bool
  | .str _ => true
  | .list l => !l.contains "."

/-- A raw record (`RawRecord` / `Sleep` in the source): the top level is
always a dict, modelled directly by its bindings. -/
abbrev Entry := List (String × Value)

/-- A normalized sleep-session record, built by the dict comprehension in
`extract_sleep_data`. -/
abbrev SleepRecord := List (String × Value)

/-- The configuration surface the extractor reads (`self.config.…`),
flattened: `required_fields`, `vitals.timestamp`, `timezone`,
`use_seconds`, `sleep_key.sleep_stages`, `sleep.sleep_transformations`. -/
structure Config where
  required_fields : List KeyPath
  vitals_timestamp : String
  timezone : Int
  use_seconds : Bool
  sleep_stages : KeyPath
  sleep_transformations : List (String × (Entry → Value))

/-- The date carried by a raw timestamp value.  Raw timestamps are
modelled as `Value.int` holding a day number. -/
def Value.dateOf : Value → Int
  | .int n => n
  | _ => 0

/-- Modelled from the spec: the external date validity check from
`time_helpers` (not under src/) — `(instant_or_date, start_date,
end_date) -> bool`, inclusive on both bounds. -/
def is_valid_date (timestamp : Value) (start_date end_date : Int) : Bool :=
  start_date ≤ timestamp.dateOf && timestamp.dateOf ≤ end_date

/-- A normalized timezone-aware instant, as produced by the external
Timestamp Normalizer. -/
structure Instant where
  date : Int
  tz : Int
deriving DecidableEq

/-- Modelled from the spec: the external Timestamp Normalizer
`convert_timestamp` from `time_helpers` (not under src/) —
`(raw_timestamp, timezone, use_seconds_flag) -> normalized_instant`,
producing an instant comparable for ordering and date-range filtering. -/
def convert_timestamp (raw : Value) (tz : Int) (_use_seconds : Bool) : Instant :=
  { date := raw.dateOf, tz := tz }

/-- Python membership `x in entry` on a dict, where `x` is a resolver
result: a `dict_keys` view (and a dict) is unhashable, so membership
raises `TypeError`; an int is never equal to a string key; a string is
compared against the top-level keys. -/
def memEntry (r : Resolved) (entry : Entry) : Except PyError Bool :=
  match r with
  | .keySet _ => .error .typeError
  | .value (.dict _) => .error .typeError
  | .value (.int _) => .ok false
  | .value (.str s) => .ok (entry.any fun kv => kv.1 == s)

/-- The required-fields check of `is_valid_sleep_entry`:
`all(self.get_nested_value(entry, field) in entry for field in
self.config.required_fields)` — evaluated left to right, short-circuiting
on the first false item, propagating the first exception. -/
def checkRequiredAux (entry : Entry) : List KeyPath → Except PyError Bool
  | [] => .ok true
  | f :: fs =>
    match get_nested_value (.dict entry) f with
    | .error e => .error e
    | .ok r =>
      match memEntry r entry with
      | .error e => .error e
      | .ok true => checkRequiredAux entry fs
      | .ok false => .ok false

/-- `all(... for field in self.config.required_fields)`. -/
def checkRequired (cfg : Config) (entry : Entry) : Except PyError Bool :=
  checkRequiredAux entry cfg.required_fields

/-- Python substring containment `needle in hay`: some suffix of the
haystack starts with the needle. -/
def containsSub (needle : List Char) : List Char → Bool
  | [] => needle.isEmpty
  | c :: rest => needle.isPrefixOf (c :: rest) || containsSub needle rest

/-- Python membership `"light" in x`, where `x` is a resolver result: key
membership for a `dict_keys` view or a dict, substring test for a string,
`TypeError` for an int. -/
def lightCheck (r : Resolved) : Except PyError Bool :=
  match r with
  | .keySet ks => .ok (ks.contains "light")
  | .value (.str s) => .ok (containsSub "light".toList s.toList)
  | .value (.dict kvs) => .ok (kvs.any fun kv => kv.1 == "light")
  | .value (.int _) => .error .typeError

/-- `FitbitExtractor.is_valid_sleep_entry` (fitbit_extractor.py:42-65).
Note the direct subscription `entry[self.config.vitals.timestamp]`, which
raises `KeyError` when the timestamp key is absent. -/
def is_valid_sleep_entry (cfg : Config) (entry : Entry)
    (start_date end_date : Int) : Except PyError Bool :=
  match checkRequired cfg entry with
  | .error e => .error e
  | .ok false => .ok false
  | .ok true =>
    match entry.lookup cfg.vitals_timestamp with
    | none => .error .keyError
    | some tsv =>
      match get_nested_value (.dict entry) cfg.sleep_stages with
      | .error e => .error e
      | .ok stg =>
        match lightCheck stg with
        | .error e => .error e
        | .ok light_exists =>
          .ok (is_valid_date tsv start_date end_date && light_exists)

/-- `FitbitExtractor.extract_sleep_data` (fitbit_extractor.py:97-110),
materialized: the list of records yielded before the generator finishes
(err `none`) or raises (err `some`).  The record list comes last so the
recursion is on it. -/
def extract_sleep_data (cfg : Config) (start_date end_date : Int) :
    List Entry → List SleepRecord × Option PyError
  | [] => ([], none)
  | entry :: rest =>
    match is_valid_sleep_entry cfg entry start_date end_date with
    | .error e => ([], some e)
    | .ok false => extract_sleep_data cfg start_date end_date rest
    | .ok true =>
      let record := cfg.sleep_transformations.map fun kf => (kf.1, kf.2 entry)
      let r := extract_sleep_data cfg start_date end_date rest
      (record :: r.1, r.2)

/-- `FitbitExtractor.SPO2_MIN_VALID`. -/
def SPO2_MIN_VALID : Int := 75

/-- `FitbitExtractor.BPM_MIN_VALID`. -/
def BPM_MIN_VALID : Int := 50

/-- What `extract_vitals_data` produces once its input is exhausted or an
exception escapes: the pairs yielded so far, the two counters, the log
messages in emission order, and the escaped exception if any (in which
case no summary line is logged). -/
structure VitalsResult where
  pairs : List (Instant × Int)
  extracted : Nat
  valid : Nat
  logs : List String
  err : Option PyError
deriving DecidableEq

/-- The summary line `logger.info` writes after the input is exhausted. -/
def summaryMsg (valid : Nat) (vitals_type : String) (extracted : Nat) : String :=
  "Extracted " ++ toString valid ++ " valid " ++ vitals_type ++
    " entries out of " ++ toString extracted

/-- The progress line `logger.debug` writes every 15th valid emission. -/
def debugMsg (ts : Instant) (vitals_type : String) (v : Int) : String :=
  toString ts.date ++ ": " ++ vitals_type ++ " " ++ toString v

/-- The loop of `FitbitExtractor.extract_vitals_data`
(fitbit_extractor.py:67-95), with the two counters as accumulators.  Per
entry: subscript the timestamp key (`KeyError` if absent), normalize it,
resolve the value path, increment `extracted_count`, then compare
`value >= min_valid` — a `TypeError` unless the resolved value is an int —
and on success increment `valid_count`, log every 15th valid emission, and
yield the pair. -/
def extractVitalsAux (cfg : Config) (key : KeyPath) (vitals_type : String)
    (min_valid : Int) : List Entry → Nat → Nat → VitalsResult
  | [], ec, vc => ⟨[], ec, vc, [summaryMsg vc vitals_type ec], none⟩
  | entry :: rest, ec, vc =>
    match entry.lookup cfg.vitals_timestamp with
    | none => ⟨[], ec, vc, [], some .keyError⟩
    | some raw =>
      let ts := convert_timestamp raw cfg.timezone cfg.use_seconds
      match get_nested_value (.dict entry) key with
      | .error e => ⟨[], ec, vc, [], some e⟩
      | .ok (.value (.int v)) =>
        if min_valid ≤ v then
          let r := extractVitalsAux cfg key vitals_type min_valid rest
            (ec + 1) (vc + 1)
          { pairs := (ts, v) :: r.pairs
            extracted := r.extracted
            valid := r.valid
            logs := (if (vc + 1) % 15 == 0 then [debugMsg ts vitals_type v]
              else []) ++ r.logs
            err := r.err }
        else
          extractVitalsAux cfg key vitals_type min_valid rest (ec + 1) vc
      | .ok _ => ⟨[], ec + 1, vc, [], some .typeError⟩

/-- `FitbitExtractor.extract_vitals_data` (fitbit_extractor.py:67-95),
materialized with both counters starting at zero. -/
def extract_vitals_data (cfg : Config) (vitals_data : List Entry)
    (key : KeyPath) (vitals_type : String) (min_valid : Int) : VitalsResult :=
  extractVitalsAux cfg key vitals_type min_valid vitals_data 0 0

/-- Modelled from the spec: the external per-format `read_file` (not under
src/) returns the lazy sequence of RawRecords of a file; files are
modelled by the record sequence they contain, so the reader is the
identity. -/
def read_file (file : List Entry) : List Entry := file

/-- The generator expression inside `collect_vitals_data`
(fitbit_extractor.py:121-128), materialized: for each file, the pairs
produced by `extract_vitals_data` are piped through the filter clause
`is_valid_date(timestamp.datetime.date(), …)`; a datetime instant has no
`datetime` attribute, so the first pair delivered raises
`AttributeError` before `is_valid_date` is ever called.  A file that
yields no pair but raises propagates its own exception; if every file
yields nothing and raises nothing the stream completes empty. -/
def innerVitalsStream (cfg : Config) (key : KeyPath) (vitals_type : String)
    (min_valid : Int) : List (List Entry) →
    List (Instant × Int) × Option PyError
  | [] => ([], none)
  | f :: fs =>
    let r := extract_vitals_data cfg (read_file f) key vitals_type min_valid
    match r.pairs with
    | _ :: _ => ([], some .attributeError)
    | [] =>
      match r.err with
      | some e => ([], some e)
      | none => innerVitalsStream cfg key vitals_type min_valid fs

/-- `FitbitExtractor.collect_vitals_data` (fitbit_extractor.py:112-128).
The body is `yield (pair for file in … if …)`: the outer generator yields
the inner generator expression itself as its single item, so the produced
sequence has exactly one element — the nested stream — no matter how many
records the files hold.  The date-window arguments are never reached
because consuming the nested stream raises at `timestamp.datetime` first.
Each outer item is modelled by the nested stream's materialization. -/
def collect_vitals_data (cfg : Config) (vitals_files : List (List Entry))
    (_start_date _end_date : Int) (vitals_key : KeyPath)
    (vitals_type : String) (min_valid : Int) :
    List (List (Instant × Int) × Option PyError) :=
  [innerVitalsStream cfg vitals_key vitals_type min_valid vitals_files]

/-- The handler registry `DataHandler._registry`: format name to handler
class, the class modelled by an identifying number. -/
abbrev Registry := List (String × Nat)

/-- `cls.__module__.split(".")[-2]`: the second-to-last component of the
module path (the per-format package directory name).  The module path is
modelled already split into components; fewer than two components makes
`[-2]` raise `IndexError`. -/
def moduleFormatName (module : List String) : Except PyError String :=
  match module.reverse with
  | _ :: pkg :: _ => .ok pkg
  | _ => .error .indexError

/-- `DataHandler.__init_subclass__` (handlers.py:18-25): derive the format
name from the subclass's module, raise `ValueError` if it is already
registered, otherwise bind it in the registry. -/
def initSubclass (registry : Registry) (module : List String) (cls : Nat) :
    Except PyError Registry :=
  match moduleFormatName module with
  | .error e => .error e
  | .ok pkg =>
    if registry.any fun e => e.1 == pkg then .error .valueError
    else .ok (registry ++ [(pkg, cls)])

/-- A sequence of class definitions, each triggering
`__init_subclass__` on the shared registry; the first raised error
aborts the run (startup fails). -/
def runRegistrationsFrom (reg : Registry) :
    List (List String × Nat) → Except PyError Registry
  | [] => .ok reg
  | d :: rest =>
    match initSubclass reg d.1 d.2 with
    | .error e => .error e
    | .ok reg' => runRegistrationsFrom reg' rest

/-- All class definitions of a run, starting from the empty registry. -/
def runRegistrations (defs : List (List String × Nat)) :
    Except PyError Registry :=
  runRegistrationsFrom [] defs

/-- The resolved integer value of an entry at the value path, defaulting
to 0; meaningful for entries satisfying `wfEntry`. -/
def valOf (entry : Entry) (key : KeyPath) : Int :=
  match get_nested_value (.dict entry) key with
  | .ok (.value (.int v)) => v
  | _ => 0

/-- The normalized timestamp of an entry; meaningful for entries
satisfying `wfEntry`. -/
def tsOf (cfg : Config) (entry : Entry) : Instant :=
  convert_timestamp ((entry.lookup cfg.vitals_timestamp).getD (.int 0))
    cfg.timezone cfg.use_seconds

/-- Whether the value path resolves on the entry to a raw int. -/
def resolvesInt (entry : Entry) (key : KeyPath) : Bool :=
  match get_nested_value (.dict entry) key with
  | .ok (.value (.int _)) => true
  | _ => false

/-- Entries `extract_vitals_data` processes without raising: the
timestamp key is present and the value path resolves to an int (so the
comparison with the threshold is int-to-int). -/
def wfEntry (cfg : Config) (key : KeyPath) (entry : Entry) : Bool :=
  (entry.lookup cfg.vitals_timestamp).isSome && resolvesInt entry key

/-! ## Theorems -/

/-- A record `{"b": 5}`, used to separate the code's walk from the
abort-on-first-failure walk the spec describes. -/
def cexDict : Value := .dict [("b", .int 5)]

/-- C1, counterexample.  On the record `{"b": 5}` and the path
`["a", "b"]` the first key "a" fails, yet the code goes on to apply the
later key "b" and returns the raw value `5`; the claimed abort-at-first-
failure semantics would stop at "a" and return the key set `{"b"}` of the
last successfully reached value. -/
theorem get_nested_value_not_abort_cex :
    get_nested_value cexDict (.list ["a", "b"]) = .ok (.value (.int 5)) ∧
    finalize (walkAbort cexDict ["a", "b"]) = .keySet ["b"] ∧
    Resolved.value (.int 5) ≠ Resolved.keySet ["b"] :=
  ⟨rfl, rfl, fun h => nomatch h⟩

/-- C1, amended: at a key that is absent or whose current value is not
indexable, `get_nested_value` leaves the current value unchanged and
continues the walk with the remaining keys (so keys after a failing key
are still applied); for a key sequence without "." the result is the full
walk's final value, converted to its key set when it is a mapping. -/
theorem get_nested_value_walk_continues (d : Value) (p1 p2 : List String)
    (k : String) (h : (walk d p1).lookup k = none) :
    walk d (p1 ++ k :: p2) = walk (walk d p1) p2 ∧
    (∀ l : List String, l.contains "." = false →
      get_nested_value d (.list l) = .ok (finalize (walk d l))) ∧
    (∀ kvs, finalize (.dict kvs) = .keySet (kvs.map Prod.fst)) := by
  refine ⟨?_, ?_, fun kvs => rfl⟩
  · unfold walk at h ⊢
    simp [List.foldl_append, h]
  · intro l hl
    simp at hl
    simp [get_nested_value, toKeys, hl, Except.map]

/-- C1, witness for `get_nested_value_walk_continues` on the record
`{"b": 5}`, the failing key "z" and the later key "b". -/
theorem get_nested_value_walk_continues_witness :
    walk cexDict (["a"] ++ "z" :: ["b"]) = walk (walk cexDict ["a"]) ["b"] :=
  (get_nested_value_walk_continues cexDict ["a"] ["b"] "z" rfl).1

/-- C2, counterexample.  A `FieldPath` given as a sequence of keys that
contains "." as an element makes `get_nested_value` raise
`AttributeError`: `"." in key_path` is then true and
`key_path.split(".")` is attribute access on a list. -/
theorem get_nested_value_raises_cex :
    get_nested_value (.dict [("a", .int 1)]) (.list ["."]) =
      .error .attributeError := rfl

/-- C2, amended: for every record and every `FieldPath` that is a string,
or a key sequence without "." among its elements, `get_nested_value`
returns normally (never raises).  Idempotence and non-mutation are
structural: the embedding is a pure function of the record and path. -/
theorem get_nested_value_total_of_pathSafe (d : Value) (p : KeyPath)
    (h : pathSafe p = true) :
    ∃ r, get_nested_value d p = .ok r := by
  cases p with
  | str s => exact ⟨_, rfl⟩
  | list l =>
    simp [pathSafe] at h
    exact ⟨finalize (walk d l),
      by simp [get_nested_value, toKeys, h, Except.map]⟩

/-- C2, witness for `get_nested_value_total_of_pathSafe` on the record
`{"a": 1}` and the dotted string path "a.b". -/
theorem get_nested_value_total_of_pathSafe_witness :
    ∃ r, get_nested_value (.dict [("a", .int 1)]) (.str "a.b") = .ok r :=
  get_nested_value_total_of_pathSafe (.dict [("a", .int 1)]) (.str "a.b") rfl

/-- C10: a string path without "." is iterated character by character —
`get_nested_value` walks the 1-character keys `charKeys s`, every key it
applies differs from the whole string once the string has more than one
character, and concretely resolving "spo2" against `{"spo2": 95}` returns
the key set `{"spo2"}`, not `95`. -/
theorem get_nested_value_char_iteration :
    (∀ (d : Value) (s : String), s.toList.contains '.' = false →
      1 < s.length →
      get_nested_value d (.str s) = .ok (finalize (walk d (charKeys s))) ∧
      ∀ k ∈ charKeys s, k ≠ s) ∧
    get_nested_value (.dict [("spo2", .int 95)]) (.str "spo2") =
      .ok (.keySet ["spo2"]) := by
  refine ⟨fun d s hdot hlen => ⟨?_, ?_⟩, rfl⟩
  · simp at hdot
    simp [get_nested_value, toKeys, hdot, Except.map]
  · intro k hk hks
    obtain ⟨c, _, hck⟩ := List.mem_map.mp hk
    have h1 : k.length = 1 := by rw [← hck]; rfl
    rw [hks] at h1
    omega

/-- C10, witness for `get_nested_value_char_iteration` on the empty record
and the dotless two-character path "ab". -/
theorem get_nested_value_char_iteration_witness :
    get_nested_value (.dict []) (.str "ab") =
      .ok (finalize (walk (.dict []) (charKeys "ab"))) ∧
    ∀ k ∈ charKeys "ab", k ≠ "ab" :=
  get_nested_value_char_iteration.1 (.dict []) "ab" rfl (by decide)

/-- Sleep config with "timestamp" as the single required field and as the
timestamp key. -/
def cfgC4 : Config :=
  { required_fields := [.str "timestamp"]
    vitals_timestamp := "timestamp"
    timezone := 0
    use_seconds := false
    sleep_stages := .str "stages"
    sleep_transformations := [] }

/-- The same config with no required fields at all. -/
def cfgNoReq : Config :=
  { cfgC4 with required_fields := [] }

/-- A sleep record missing the configured timestamp field. -/
def entryC4 : Entry := [("other", .int 1)]

/-- C4: a sleep record missing the configured timestamp field is not
silently skipped — `is_valid_sleep_entry` raises and the exception
escapes `extract_sleep_data`.  With "timestamp" among the required
fields, the membership test `get_nested_value(entry, field) in entry`
probes the dict with an unhashable `dict_keys` view (`TypeError`); with
no required fields configured, the direct subscription
`entry[self.config.vitals.timestamp]` raises `KeyError`. -/
theorem extract_sleep_data_raises_on_missing_timestamp :
    is_valid_sleep_entry cfgC4 entryC4 0 10 = .error .typeError ∧
    extract_sleep_data cfgC4 0 10 [entryC4] = ([], some .typeError) ∧
    is_valid_sleep_entry cfgNoReq entryC4 0 10 = .error .keyError ∧
    extract_sleep_data cfgNoReq 0 10 [entryC4] = ([], some .keyError) :=
  ⟨rfl, rfl, rfl, rfl⟩

/-- Sleep config for the light-stage claims: no required fields, timestamp
key "ts", stage path the dotless string "stages". -/
def cfgC7 : Config :=
  { required_fields := []
    vitals_timestamp := "ts"
    timezone := 0
    use_seconds := false
    sleep_stages := .str "stages"
    sleep_transformations := [("start", fun _ => .int 0)] }

/-- A record whose stage subtree `{"deep": 2}` holds no "light" key at
any depth — but which has "light" as a top-level key. -/
def entryC7 : Entry :=
  [("light", .int 1), ("stages", .dict [("deep", .int 2)]), ("ts", .int 5)]

/-- C7, counterexample.  The stage subtree of `entryC7` contains no key
"light" anywhere, yet `is_valid_sleep_entry` returns true and
`extract_sleep_data` emits a SleepRecord for it: the dotless stage path
"stages" is iterated character by character, every lookup fails, the
resolver falls back to the whole record, and the top-level key "light"
satisfies the check. -/
theorem sleep_light_check_fooled_cex :
    entryC7.lookup "stages" = some (.dict [("deep", .int 2)]) ∧
    hasKeyDeep "light" (.dict [("deep", .int 2)]) = false ∧
    is_valid_sleep_entry cfgC7 entryC7 0 10 = .ok true ∧
    extract_sleep_data cfgC7 0 10 [entryC7] = ([[("start", .int 0)]], none) :=
  ⟨rfl, rfl, rfl, rfl⟩

/-- C7, amended: whenever `is_valid_sleep_entry` completes without
raising and the configured sleep-stage path resolves on the record to a
mapping whose key set lacks "light", the entry is judged invalid and
`extract_sleep_data` emits no SleepRecord for it. -/
theorem is_valid_sleep_entry_false_of_no_light (cfg : Config) (entry : Entry)
    (s e : Int) (ks : List String) (b : Bool)
    (hres : get_nested_value (.dict entry) cfg.sleep_stages =
      .ok (.keySet ks))
    (hlight : ks.contains "light" = false)
    (hok : is_valid_sleep_entry cfg entry s e = .ok b) :
    b = false ∧
    ∀ rest, extract_sleep_data cfg s e (entry :: rest) =
      extract_sleep_data cfg s e rest := by
  have hb : b = false := by
    unfold is_valid_sleep_entry at hok
    cases hcr : checkRequired cfg entry with
    | error e' => rw [hcr] at hok; cases hok
    | ok req =>
      rw [hcr] at hok
      cases req with
      | false => injection hok with h; exact h.symm
      | true =>
        cases hts : entry.lookup cfg.vitals_timestamp with
        | none => rw [hts] at hok; cases hok
        | some tsv =>
          rw [hts, hres] at hok
          simp only [lightCheck] at hok
          rw [hlight] at hok
          injection hok with h
          rw [← h, Bool.and_false]
  subst hb
  refine ⟨rfl, fun rest => ?_⟩
  simp [extract_sleep_data, hok]

/-- A record with no "light" key at top level either, so the fooled check
also fails and the validator genuinely returns false. -/
def entryC7b : Entry := [("ts", .int 5), ("stages", .dict [("deep", .int 2)])]

/-- C7, witness for `is_valid_sleep_entry_false_of_no_light` on
`entryC7b`, whose fallback key set `{"ts", "stages"}` lacks "light". -/
theorem is_valid_sleep_entry_false_of_no_light_witness :
    (false : Bool) = false ∧
    ∀ rest, extract_sleep_data cfgC7 0 10 (entryC7b :: rest) =
      extract_sleep_data cfgC7 0 10 rest :=
  is_valid_sleep_entry_false_of_no_light cfgC7 entryC7b 0 10
    ["ts", "stages"] false rfl rfl rfl

/-- A `resolvesInt` entry resolves exactly to `valOf`. -/
theorem resolvesInt_eq (e : Entry) (key : KeyPath)
    (h : resolvesInt e key = true) :
    get_nested_value (.dict e) key = .ok (.value (.int (valOf e key))) := by
  unfold resolvesInt at h
  unfold valOf
  cases hg : get_nested_value (.dict e) key with
  | error er => rw [hg] at h; cases h
  | ok r =>
    rw [hg] at h
    cases r with
    | keySet ks => cases h
    | value v => cases v with
      | int n => rfl
      | str s => cases h
      | dict kvs => cases h

/-- What one run of `extract_vitals_data` produces on entries it can
process: the pairs are exactly the entries whose value meets the
threshold (inclusive), in input order; the extracted counter grows by the
input length, the valid counter by the number of passing entries; no
exception escapes. -/
theorem extractVitalsAux_spec (cfg : Config) (key : KeyPath) (vt : String)
    (minv : Int) :
    ∀ (entries : List Entry) (ec vc : Nat),
      (∀ x ∈ entries, wfEntry cfg key x = true) →
      (extractVitalsAux cfg key vt minv entries ec vc).pairs =
        (entries.filterMap fun x =>
          if minv ≤ valOf x key then some (tsOf cfg x, valOf x key)
          else none) ∧
      (extractVitalsAux cfg key vt minv entries ec vc).extracted =
        ec + entries.length ∧
      (extractVitalsAux cfg key vt minv entries ec vc).valid =
        vc + (entries.countP fun x => minv ≤ valOf x key) ∧
      (extractVitalsAux cfg key vt minv entries ec vc).err = none := by
  intro entries
  induction entries with
  | nil =>
    intro ec vc _
    exact ⟨rfl, by simp [extractVitalsAux], by simp [extractVitalsAux], rfl⟩
  | cons x rest ih =>
    intro ec vc hwf
    have hx := hwf x (List.mem_cons_self x rest)
    have hrest := fun y hy => hwf y (List.mem_cons_of_mem _ hy)
    rw [wfEntry, Bool.and_eq_true] at hx
    obtain ⟨h1, h2⟩ := hx
    obtain ⟨raw, hraw⟩ := Option.isSome_iff_exists.mp h1
    have hget := resolvesInt_eq x key h2
    have hts : tsOf cfg x =
        convert_timestamp raw cfg.timezone cfg.use_seconds := by
      unfold tsOf; rw [hraw]; rfl
    unfold extractVitalsAux
    rw [hraw, hget]
    dsimp only
    by_cases hc : minv ≤ valOf x key
    · obtain ⟨ihp, ihe, ihv, iherr⟩ := ih (ec + 1) (vc + 1) hrest
      rw [if_pos hc]
      refine ⟨?_, ?_, ?_, ?_⟩
      · dsimp only
        rw [ihp, ← hts]
        simp [List.filterMap_cons, hc]
      · dsimp only
        rw [ihe, List.length_cons]
        omega
      · dsimp only
        rw [ihv, List.countP_cons_of_pos _ _ (by simpa using hc)]
        omega
      · exact iherr
    · obtain ⟨ihp, ihe, ihv, iherr⟩ := ih (ec + 1) vc hrest
      rw [if_neg hc]
      refine ⟨?_, ?_, ?_, ?_⟩
      · rw [ihp]
        simp [List.filterMap_cons, hc]
      · rw [ihe, List.length_cons]
        omega
      · rw [ihv, List.countP_cons_of_neg _ _ (by simpa using hc)]
      · exact iherr

/-- Vitals config: timestamp key "ts", irrelevant sleep fields. -/
def cfgV : Config :=
  { required_fields := []
    vitals_timestamp := "ts"
    timezone := 0
    use_seconds := false
    sleep_stages := .str "stages"
    sleep_transformations := [] }

/-- A vitals record with timestamp `t` and value `v` under key "v". -/
def mkVital (t v : Int) : Entry := [("ts", .int t), ("v", .int v)]

/-- C5: on inputs it can process, `extract_vitals_data` emits exactly the
entries whose resolved value is ≥ the threshold, in input order — a value
exactly at the threshold is emitted, a value strictly below never is —
and the configured floors are 75 for SpO2 and 50 for heart rate. -/
theorem extract_vitals_data_threshold_inclusive (cfg : Config)
    (entries : List Entry) (key : KeyPath) (vt : String) (minv : Int)
    (hwf : ∀ x ∈ entries, wfEntry cfg key x = true) :
    (extract_vitals_data cfg entries key vt minv).pairs =
      (entries.filterMap fun x =>
        if minv ≤ valOf x key then some (tsOf cfg x, valOf x key)
        else none) ∧
    (∀ x ∈ entries, valOf x key = minv →
      (tsOf cfg x, valOf x key) ∈
        (extract_vitals_data cfg entries key vt minv).pairs) ∧
    (∀ p ∈ (extract_vitals_data cfg entries key vt minv).pairs,
      minv ≤ p.2) ∧
    SPO2_MIN_VALID = 75 ∧ BPM_MIN_VALID = 50 := by
  obtain ⟨hp, -, -, -⟩ :=
    extractVitalsAux_spec cfg key vt minv entries 0 0 hwf
  have hp' : (extract_vitals_data cfg entries key vt minv).pairs =
      (entries.filterMap fun x =>
        if minv ≤ valOf x key then some (tsOf cfg x, valOf x key)
        else none) := hp
  refine ⟨hp', ?_, ?_, rfl, rfl⟩
  · intro x hx hv
    rw [hp']
    exact List.mem_filterMap.mpr ⟨x, hx, by simp [hv]⟩
  · intro p hmem
    rw [hp'] at hmem
    obtain ⟨x, _, hfx⟩ := List.mem_filterMap.mp hmem
    by_cases hc : minv ≤ valOf x key
    · rw [if_pos hc] at hfx
      injection hfx with h'
      rw [← h']
      exact hc
    · rw [if_neg hc] at hfx
      cases hfx

/-- Records for the C5 witness: one exactly at the SpO2 floor of 75, one
just below it. -/
def entriesC5 : List Entry := [mkVital 1 75, mkVital 2 74]

/-- C5, witness for `extract_vitals_data_threshold_inclusive` on a record
whose value is exactly the SpO2 floor of 75: its pair is emitted. -/
theorem extract_vitals_data_threshold_inclusive_witness :
    (tsOf cfgV (mkVital 1 75), valOf (mkVital 1 75) (.list ["v"])) ∈
      (extract_vitals_data cfgV entriesC5 (.list ["v"]) "SpO2"
        SPO2_MIN_VALID).pairs :=
  (extract_vitals_data_threshold_inclusive cfgV entriesC5 (.list ["v"])
    "SpO2" SPO2_MIN_VALID (by decide)).2.1 (mkVital 1 75)
    (List.mem_cons_self (mkVital 1 75) [mkVital 2 74]) rfl

/-- Scenario-1 input: 20 heart-rate records, 5 of them (at positions 4,
8, 12, 16, 20) below 50 bpm. -/
def entriesC6 : List Entry :=
  [mkVital 1 60, mkVital 2 61, mkVital 3 62, mkVital 4 40,
   mkVital 5 63, mkVital 6 64, mkVital 7 65, mkVital 8 41,
   mkVital 9 66, mkVital 10 67, mkVital 11 68, mkVital 12 42,
   mkVital 13 69, mkVital 14 70, mkVital 15 71, mkVital 16 43,
   mkVital 17 72, mkVital 18 73, mkVital 19 74, mkVital 20 44]

/-- C6: on 20 heart-rate records, 5 below 50, `extract_vitals_data` with
threshold 50 yields exactly the 15 passing pairs in input order, counts
20 extracted / 15 valid, and after exhaustion logs
"Extracted 15 valid Heart rate entries out of 20" (preceded by the one
debug line of the 15th valid emission). -/
theorem extract_vitals_data_scenario1 :
    (extract_vitals_data cfgV entriesC6 (.list ["v"]) "Heart rate"
      BPM_MIN_VALID).pairs =
      [(⟨1, 0⟩, 60), (⟨2, 0⟩, 61), (⟨3, 0⟩, 62), (⟨5, 0⟩, 63),
       (⟨6, 0⟩, 64), (⟨7, 0⟩, 65), (⟨9, 0⟩, 66), (⟨10, 0⟩, 67),
       (⟨11, 0⟩, 68), (⟨13, 0⟩, 69), (⟨14, 0⟩, 70), (⟨15, 0⟩, 71),
       (⟨17, 0⟩, 72), (⟨18, 0⟩, 73), (⟨19, 0⟩, 74)] ∧
    (extract_vitals_data cfgV entriesC6 (.list ["v"]) "Heart rate"
      BPM_MIN_VALID).extracted = 20 ∧
    (extract_vitals_data cfgV entriesC6 (.list ["v"]) "Heart rate"
      BPM_MIN_VALID).valid = 15 ∧
    (extract_vitals_data cfgV entriesC6 (.list ["v"]) "Heart rate"
      BPM_MIN_VALID).logs =
      [debugMsg ⟨19, 0⟩ "Heart rate" 74, summaryMsg 15 "Heart rate" 20] ∧
    summaryMsg 15 "Heart rate" 20 =
      "Extracted 15 valid Heart rate entries out of 20" ∧
    (extract_vitals_data cfgV entriesC6 (.list ["v"]) "Heart rate"
      BPM_MIN_VALID).err = none := by
  refine ⟨?_, ?_, ?_, ?_, ?_, ?_⟩ <;> rfl

/-- The running counters always satisfy valid ≤ extracted. -/
theorem extractVitalsAux_valid_le (cfg : Config) (key : KeyPath)
    (vt : String) (minv : Int) :
    ∀ (entries : List Entry) (ec vc : Nat), vc ≤ ec →
      (extractVitalsAux cfg key vt minv entries ec vc).valid ≤
        (extractVitalsAux cfg key vt minv entries ec vc).extracted := by
  intro entries
  induction entries with
  | nil => intro ec vc h; exact h
  | cons x rest ih =>
    intro ec vc h
    unfold extractVitalsAux
    cases hx : x.lookup cfg.vitals_timestamp with
    | none => exact h
    | some raw =>
      dsimp only
      cases hg : get_nested_value (.dict x) key with
      | error e => exact h
      | ok r =>
        cases r with
        | keySet ks => exact Nat.le_succ_of_le h
        | value v =>
          cases v with
          | int n =>
            dsimp only
            by_cases hc : minv ≤ n
            · rw [if_pos hc]
              exact ih (ec + 1) (vc + 1) (Nat.succ_le_succ h)
            · rw [if_neg hc]
              exact ih (ec + 1) vc (Nat.le_succ_of_le h)
          | str s => exact Nat.le_succ_of_le h
          | dict kvs => exact Nat.le_succ_of_le h

/-- C8: after any prefix of the input (any point of the iteration) the
valid counter is ≤ the extracted counter, and once the whole input is
processed the two are equal iff every record's value passes the
threshold. -/
theorem extract_vitals_counters (cfg : Config) (key : KeyPath)
    (vt : String) (minv : Int) (entries : List Entry)
    (hwf : ∀ x ∈ entries, wfEntry cfg key x = true) :
    (∀ p, p <+: entries →
      (extract_vitals_data cfg p key vt minv).valid ≤
        (extract_vitals_data cfg p key vt minv).extracted) ∧
    ((extract_vitals_data cfg entries key vt minv).valid =
        (extract_vitals_data cfg entries key vt minv).extracted ↔
      ∀ x ∈ entries, minv ≤ valOf x key) := by
  constructor
  · intro p _
    exact extractVitalsAux_valid_le cfg key vt minv p 0 0 (Nat.le_refl 0)
  · obtain ⟨-, he, hv, -⟩ :=
      extractVitalsAux_spec cfg key vt minv entries 0 0 hwf
    rw [extract_vitals_data, he, hv]
    simp [List.countP_eq_length]

/-- C8, witness for `extract_vitals_counters`: on `entriesC5` (one
passing, one failing record) the equality of counters is equivalent to
all records passing — and both sides are indeed false here. -/
theorem extract_vitals_counters_witness :
    ((extract_vitals_data cfgV entriesC5 (.list ["v"]) "SpO2"
        SPO2_MIN_VALID).valid =
      (extract_vitals_data cfgV entriesC5 (.list ["v"]) "SpO2"
        SPO2_MIN_VALID).extracted ↔
      ∀ x ∈ entriesC5, SPO2_MIN_VALID ≤ valOf x (.list ["v"])) :=
  (extract_vitals_counters cfgV (.list ["v"]) "SpO2" SPO2_MIN_VALID
    entriesC5 (by decide)).2

/-- Two vitals files holding three records in total, all passing the
threshold and all inside the date window. -/
def filesC3 : List (List Entry) :=
  [[mkVital 1 60], [mkVital 2 61, mkVital 3 62]]

/-- C3: `collect_vitals_data` does not produce the concatenated filtered
pairs: its body is `yield (generator expression)`, so the outer sequence
has exactly one element, that element is the nested stream rather than a
pair, and consuming the nested stream raises AttributeError at
`timestamp.datetime` before delivering any of the three pairs the files
would contribute. -/
theorem collect_vitals_data_nested_cex :
    collect_vitals_data cfgV filesC3 0 10 (.list ["v"]) "Heart rate"
      BPM_MIN_VALID = [([], some .attributeError)] ∧
    (collect_vitals_data cfgV filesC3 0 10 (.list ["v"]) "Heart rate"
      BPM_MIN_VALID).length = 1 ∧
    (extract_vitals_data cfgV [mkVital 1 60] (.list ["v"]) "Heart rate"
      BPM_MIN_VALID).pairs = [(⟨1, 0⟩, 60)] :=
  ⟨rfl, rfl, rfl⟩

/-- Successful registration preserves distinctness of the registered
format names. -/
theorem runRegistrationsFrom_nodup :
    ∀ (defs : List (List String × Nat)) (reg : Registry),
      (reg.map Prod.fst).Nodup →
      ∀ r, runRegistrationsFrom reg defs = .ok r →
        (r.map Prod.fst).Nodup := by
  intro defs
  induction defs with
  | nil =>
    intro reg h r hr
    unfold runRegistrationsFrom at hr
    injection hr with h'
    rwa [← h']
  | cons d rest ih =>
    intro reg h r hr
    unfold runRegistrationsFrom at hr
    cases hi : initSubclass reg d.1 d.2 with
    | error e => rw [hi] at hr; cases hr
    | ok reg' =>
      rw [hi] at hr
      refine ih reg' ?_ r hr
      unfold initSubclass at hi
      cases hm : moduleFormatName d.1 with
      | error e => rw [hm] at hi; cases hi
      | ok pkg =>
        rw [hm] at hi
        dsimp only at hi
        by_cases hd : (reg.any fun e => e.1 == pkg) = true
        · rw [if_pos hd] at hi; cases hi
        · rw [if_neg hd] at hi
          injection hi with h'
          rw [← h']
          have hnot : pkg ∉ reg.map Prod.fst := by
            intro hmem
            apply hd
            obtain ⟨x, hx, hfst⟩ := List.mem_map.mp hmem
            exact List.any_eq_true.mpr ⟨x, hx, by simp [hfst]⟩
          simp [List.nodup_append, h, hnot]

/-- C9: registering a class under an already-bound format name makes
`__init_subclass__` raise ValueError right at class-definition time, and
every registry reachable by a successful sequence of registrations binds
each format name at most once (its keys are pairwise distinct). -/
theorem handler_registry_unique (reg : Registry) (module : List String)
    (cls : Nat) (pkg : String)
    (hpkg : moduleFormatName module = .ok pkg)
    (hdup : (reg.any fun e => e.1 == pkg) = true) :
    initSubclass reg module cls = .error .valueError ∧
    ∀ (defs : List (List String × Nat)) (r : Registry),
      runRegistrations defs = .ok r → (r.map Prod.fst).Nodup := by
  constructor
  · unfold initSubclass
    rw [hpkg]
    dsimp only
    rw [if_pos hdup]
  · exact fun defs r hr =>
      runRegistrationsFrom_nodup defs [] (by simp) r hr

/-- C9, witness for `handler_registry_unique`: a second handler defined in
the already-registered package "fitbit". -/
theorem handler_registry_unique_witness :
    initSubclass [("fitbit", 0)] ["fitbit2oscar", "fitbit", "handlers"] 1 =
      .error .valueError ∧
    ∀ (defs : List (List String × Nat)) (r : Registry),
      runRegistrations defs = .ok r → (r.map Prod.fst).Nodup :=
  handler_registry_unique [("fitbit", 0)]
    ["fitbit2oscar", "fitbit", "handlers"] 1 "fitbit" rfl rfl

end Fitbit
